import Mathlib

/-!
Verification of the LinkedIn Intelligence & Outreach Agent repository.

The frontend TypeScript sources (`frontend/src/api/client.ts`, the
`WarmthBadge` component, the shared type declarations) are embedded
directly.  The backend Python services (`services/warmth_scorer.py`,
`services/resurrection_scanner.py`, the ranking service) are not part of
the source tree; where a claim is decided by them, the missing service is
modelled from the specification (each such definition carries a doc
comment starting `Modelled from the spec:`).
-/

namespace LinkedInAgent

/-! ## JavaScript value model (for `apiFetch`, frontend/src/api/client.ts) -/

/-- A JavaScript value as seen by the API client: the possible results of
`response.json()` plus `undefined` (which property access on a missing key
produces).  Numeric literals are modelled as integers; number formatting
plays no role in the control flow under verification. -/
inductive JsVal where
  | undefined
  | null
  | bool (b : Bool)
  | num (n : Int)
  | str (s : String)
  | arr (elems : List JsVal)
  | obj (fields : List (String × JsVal))

/-- Escape a character the way `JSON.stringify` does for quotes and
backslashes (control-character escapes are not modelled; none of the
strings under verification contain control characters). -/
def escapeJsonChar (c : Char) : List Char :=
  if c = '"' then ['\\', '"'] else if c = '\\' then ['\\', '\\'] else [c]

/-- Quote a string as a JSON string literal. -/
def quoteJson (s : String) : String :=
  "\"" ++ String.mk (s.data.foldr (fun c acc => escapeJsonChar c ++ acc) []) ++ "\""

mutual

/-- `JSON.stringify` on a JavaScript value: `none` for `undefined`
(in JS, `JSON.stringify(undefined)` is the value `undefined`, not a
string).  Inside arrays `undefined` serializes as `null`; object entries
whose value is `undefined` are dropped, as in JS. -/
def stringify : JsVal → Option String
  | .undefined => none
  | .null => some "null"
  | .bool true => some "true"
  | .bool false => some "false"
  | .num n => some (toString n)
  | .str s => some (quoteJson s)
  | .arr es => some ("[" ++ String.intercalate "," (stringifyArr es) ++ "]")
  | .obj fs => some ("\x7b" ++ String.intercalate "," (stringifyObj fs) ++ "\x7d")

/-- Serialize the elements of a JSON array. -/
def stringifyArr : List JsVal → List String
  | [] => []
  | e :: es => ((stringify e).getD "null") :: stringifyArr es

/-- Serialize the fields of a JSON object, dropping `undefined` values. -/
def stringifyObj : List (String × JsVal) → List String
  | [] => []
  | (k, v) :: fs =>
    match stringify v with
    | none => stringifyObj fs
    | some sv => (quoteJson k ++ ":" ++ sv) :: stringifyObj fs

end

/-- JavaScript property access `v.k`: `none` models the `TypeError` thrown
when reading a property of `null` or `undefined`; on objects it yields the
field value (or `undefined` when the key is absent); on every other value
it yields `undefined`. -/
def getProp (v : JsVal) (k : String) : Option JsVal :=
  match v with
  | .undefined => none
  | .null => none
  | .obj fs => some (((fs.find? (fun f => f.1 == k)).map Prod.snd).getD .undefined)
  | _ => some .undefined

/-- The `ApiError` class of frontend/src/api/client.ts: an HTTP status and
a message. -/
structure ApiError where
  status : Nat
  message : String

/-- How a call to `apiFetch` can end: resolve with a parsed body, reject
with an `ApiError`, or reject with another exception (the `SyntaxError`
from `response.json()` on an ok response whose body is not JSON, or the
`TypeError` from accessing `.detail` on a `null` body). -/
inductive FetchOutcome where
  | success (body : JsVal)
  | apiError (e : ApiError)
  | thrown

/-- An HTTP response as `apiFetch` observes it: the `ok` flag, the status
code, and the body — `some v` when the body is valid JSON parsing to `v`,
`none` when `response.json()` rejects. -/
structure HttpResponse where
  ok : Bool
  status : Nat
  jsonBody : Option JsVal

/-- The message the `ApiError` constructor receives for a given `detail`
value: the string itself when `detail` is a string, otherwise
`JSON.stringify(body.detail)` — and when that is `undefined` (absent
`detail`), `new ApiError(status, undefined)` leaves the `Error` message
empty. -/
def detailMessage (d : JsVal) : String :=
  match d with
  | .str s => s
  | _ => (stringify d).getD ""

/-- The response-handling path of `apiFetch` in frontend/src/api/client.ts.
URL construction and request headers do not influence which of the three
outcomes occurs, so the embedding starts at the received response:
if `response.ok`, return `response.json()` (rejecting when the body is not
JSON); otherwise parse the body with the `(detail := "Unknown error")`
fallback object on parse failure, read `body.detail` (throwing a
`TypeError` when `body` is `null`), and throw an `ApiError` carrying the
HTTP status and the derived message. -/
def apiFetch (r : HttpResponse) : FetchOutcome :=
  if r.ok then
    match r.jsonBody with
    | some b => .success b
    | none => .thrown
  else
    let body := r.jsonBody.getD (.obj [("detail", .str "Unknown error")])
    match getProp body "detail" with
    | none => .thrown
    | some d => .apiError ⟨r.status, detailMessage d⟩

/-! ## WarmthBadge (frontend component, src WarmthBadge.tsx) -/

/-- The four colour classes the badge can take (`bg-red-500/20`,
`bg-orange-500/20`, `bg-blue-500/20`, `bg-slate-700` with matching text
colours). -/
inductive BadgeColor where
  | red
  | orange
  | blue
  | slate
deriving DecidableEq

/-- What `WarmthBadge` renders: the `--` placeholder span, or a coloured
span showing the score. -/
inductive BadgeRender where
  | placeholder
  | colored (c : BadgeColor) (score : ℚ)
deriving DecidableEq

/-- The `WarmthBadge` component: `null`/`undefined` score renders the
placeholder; otherwise the colour is picked by the if/else-if chain
`score >= 70`, `score >= 40`, `score >= 10`, else slate.  Scores are
modelled as rationals standing for JS numbers. -/
def warmthBadge (score : Option ℚ) : BadgeRender :=
  match score with
  | none => .placeholder
  | some s =>
    if s ≥ 70 then .colored .red s
    else if s ≥ 40 then .colored .orange s
    else if s ≥ 10 then .colored .blue s
    else .colored .slate s

/-! ## Warmth Scorer (backend service, modelled from the spec) -/

/-- Message direction, `sent` (by the user) or `received` (from the
contact), as in the `messages` schema. -/
inductive Direction where
  | sent
  | received
deriving DecidableEq

/-- A message record as the Warmth Scorer consumes it: direction, a day
timestamp, the derived content length and the derived substantive flag
(per the schema in docs/ARCHITECTURE.md). -/
structure Message where
  direction : Direction
  day : ℕ
  content_length : ℕ
  is_substantive : Bool
deriving DecidableEq

/-- The five named sub-scores of a contact's warmth breakdown
(type declaration `WarmthBreakdown` in the frontend types). -/
structure WarmthBreakdown where
  recency : ℚ
  frequency : ℚ
  depth : ℚ
  responsiveness : ℚ
  initiation : ℚ
deriving DecidableEq

/-- The day of the most recent message, when any exists. -/
def lastMessageDay (msgs : List Message) : Option ℕ :=
  (msgs.map Message.day).max?

/-- Modelled from the spec: the Recency factor of
`services/warmth_scorer.py` (not under src/).  Cap 30, a monotonically
decreasing function of days-since-last-message: full points when ≤ 7
days, zero when ≥ 180 days, linear interpolation between. -/
def recencyScore (days : ℕ) : ℚ :=
  if days ≤ 7 then 30
  else if 180 ≤ days then 0
  else 30 * ((180 : ℚ) - days) / (180 - 7)

/-- Modelled from the spec: the Frequency factor of
`services/warmth_scorer.py` (not under src/).  Cap 20, saturating in the
total message count, full points at 20+ messages. -/
def frequencyScore (total : ℕ) : ℚ :=
  if 20 ≤ total then 20 else total

/-- Messages sent by the user. -/
def sentCount (msgs : List Message) : ℕ :=
  msgs.countP (fun m => m.direction == .sent)

/-- Messages received from the contact. -/
def receivedCount (msgs : List Message) : ℕ :=
  msgs.countP (fun m => m.direction == .received)

/-- Modelled from the spec: the Depth factor of
`services/warmth_scorer.py` (not under src/).  Cap 25, blending average
message length (saturating at 100 characters) and the fraction of
messages flagged substantive, each contributing half of the cap. -/
def depthScore (msgs : List Message) : ℚ :=
  if msgs.length = 0 then 0
  else
    25 / 2 *
        min 1 (((msgs.map Message.content_length).sum : ℚ) / (msgs.length : ℚ) / 100) +
      25 / 2 * ((msgs.countP Message.is_substantive : ℚ) / (msgs.length : ℚ))

/-- Modelled from the spec: the Responsiveness factor of
`services/warmth_scorer.py` (not under src/).  Cap 15, full points when
sent and received counts are balanced, degrading with the min/max ratio
as the counts skew, zero when either side is empty. -/
def responsivenessScore (msgs : List Message) : ℚ :=
  if sentCount msgs = 0 ∨ receivedCount msgs = 0 then 0
  else
    15 * ((min (sentCount msgs) (receivedCount msgs) : ℕ) : ℚ) /
      ((max (sentCount msgs) (receivedCount msgs) : ℕ) : ℚ)

/-- Sort messages chronologically (by day). -/
def chronological (msgs : List Message) : List Message :=
  msgs.insertionSort (fun a b => a.day ≤ b.day)

/-- The messages that open a conversation thread: the first message, and
every message following a gap of more than 7 days since the previous one
(the modelled conversation-boundary rule), over a chronologically sorted
list. -/
def threadStartsFrom (prev : Message) : List Message → List Message
  | [] => []
  | m :: rest =>
    if prev.day + 7 < m.day then m :: threadStartsFrom m rest
    else threadStartsFrom m rest

/-- All thread-opening messages of a chronologically sorted list. -/
def threadStarts : List Message → List Message
  | [] => []
  | m :: rest => m :: threadStartsFrom m rest

/-- Modelled from the spec: the Initiation factor of
`services/warmth_scorer.py` (not under src/).  Cap 10, rewarding the
contact starting conversation threads: the fraction of detected thread
starts whose direction is `received`, scaled to 10. -/
def initiationScore (msgs : List Message) : ℚ :=
  if (threadStarts (chronological msgs)).length = 0 then 0
  else
    10 *
        ((threadStarts (chronological msgs)).countP
            (fun m => m.direction == .received) : ℚ) /
      ((threadStarts (chronological msgs)).length : ℚ)

/-- Modelled from the spec: the breakdown computed by
`services/warmth_scorer.py` (not under src/) for a contact's message
history, evaluated on day `today`.  No message history yields a zeroed
recency (no last message to be recent about). -/
def warmthBreakdownOf (today : ℕ) (msgs : List Message) : WarmthBreakdown :=
  { recency :=
      match lastMessageDay msgs with
      | none => 0
      | some d => recencyScore (today - d)
    frequency := frequencyScore msgs.length
    depth := depthScore msgs
    responsiveness := responsivenessScore msgs
    initiation := initiationScore msgs }

/-- Modelled from the spec: the warmth score is the sum of the five
sub-scores of the breakdown. -/
def warmthScoreOf (today : ℕ) (msgs : List Message) : ℚ :=
  (warmthBreakdownOf today msgs).recency +
    (warmthBreakdownOf today msgs).frequency +
    (warmthBreakdownOf today msgs).depth +
    (warmthBreakdownOf today msgs).responsiveness +
    (warmthBreakdownOf today msgs).initiation

/-! ## Resurrection Scanner (backend service, modelled from the spec) -/

/-- The four enumerated hook kinds of `resurrection_opportunities`
(docs/ARCHITECTURE.md schema). -/
inductive Hook where
  | dormant
  | promise_made
  | question_unanswered
  | they_waiting
deriving DecidableEq

/-- All four hook kinds, as scanned for each contact. -/
def allHooks : List Hook :=
  [.dormant, .promise_made, .question_unanswered, .they_waiting]

/-- Modelled from the spec: a `resurrection_opportunities` row as
maintained by `services/resurrection_scanner.py` (not under src/).
`last_condition` records whether the hook condition held at the last
scan, which is what lets the scanner tell "newly true (re-armed)" apart
from "still true" and so honour dismissals. -/
structure Opp where
  contact_id : ℕ
  hook_type : Hook
  is_active : Bool
  last_condition : Bool
deriving DecidableEq

/-- Two rows target the same `(contact_id, hook_type)` key — the pair the
schema declares `UNIQUE`. -/
def sameKey (a b : Opp) : Prop :=
  a.contact_id = b.contact_id ∧ a.hook_type = b.hook_type

instance (a b : Opp) : Decidable (sameKey a b) := by
  unfold sameKey
  infer_instance

/-- The underlying contact/message data, abstracted to what the scanner
derives from it: whether each hook condition holds for each contact. -/
def Conds : Type :=
  ℕ → Hook → Bool

/-- Modelled from the spec: how one scan updates an existing row for a
hook whose condition currently evaluates to `holds`.  Condition no longer
holds: deactivate.  Still holds (held at last scan too): leave
`is_active` as it is, so a dismissal survives.  Newly true (it did not
hold at the last scan — re-armed): activate. -/
def scanPair (holds : Bool) (o : Opp) : Opp :=
  if holds then
    if o.last_condition then { o with last_condition := true }
    else { o with is_active := true, last_condition := true }
  else { o with is_active := false, last_condition := false }

/-- Apply the scan update to a row exactly when it carries the scanned
`(contact, hook)` key. -/
def touchKey (conds : Conds) (cid : ℕ) (h : Hook) (o : Opp) : Opp :=
  if o.contact_id = cid ∧ o.hook_type = h then scanPair (conds cid h) o else o

/-- Modelled from the spec: the upsert one scan performs for one
`(contact, hook)` pair: update the existing row when one exists,
otherwise insert an active row exactly when the condition holds. -/
def scanOne (conds : Conds) (cid : ℕ) (h : Hook) (st : List Opp) : List Opp :=
  if st.any (fun o => o.contact_id == cid && o.hook_type == h) then
    st.map (touchKey conds cid h)
  else if conds cid h then ⟨cid, h, true, true⟩ :: st else st

/-- Scan all four hooks for one contact. -/
def scanHooks (conds : Conds) (cid : ℕ) (st : List Opp) : List Opp :=
  List.foldl (fun s h => scanOne conds cid h s) st allHooks

/-- Modelled from the spec: a full scanner run over the given contacts. -/
def scanAll (conds : Conds) (cids : List ℕ) (st : List Opp) : List Opp :=
  List.foldl (fun s c => scanHooks conds c s) st cids

/-- Deactivate a row exactly when it carries the dismissed key. -/
def dismissTouch (cid : ℕ) (h : Hook) (o : Opp) : Opp :=
  if o.contact_id = cid ∧ o.hook_type = h then { o with is_active := false }
  else o

/-- Modelled from the spec: dismissal (human action via
`POST /opportunities/id/dismiss`, or the auto-dismiss side effect of
queuing outreach): set `is_active := false` on the targeted
`(contact, hook)` row. -/
def dismissPair (cid : ℕ) (h : Hook) (st : List Opp) : List Opp :=
  st.map (dismissTouch cid h)

/-- The opportunity states reachable from an empty table by any
interleaving of scanner runs (each over arbitrary contacts and arbitrary
underlying data) and dismissals. -/
inductive Reachable : List Opp → Prop where
  | init : Reachable []
  | scan (conds : Conds) (cids : List ℕ) {st : List Opp} :
      Reachable st → Reachable (scanAll conds cids st)
  | dismiss (cid : ℕ) (h : Hook) {st : List Opp} :
      Reachable st → Reachable (dismissPair cid h st)

/-! ## Ranking / Recommendation Composer (backend service, modelled from the spec) -/

/-- A contact as the ranking stage consumes it: identifier, nullable
warmth score, segment tags, and the hook types of its currently active
resurrection opportunities. -/
structure RContact where
  id : ℕ
  warmth_score : Option ℚ
  segment_tags : List String
  hooks : List Hook
deriving DecidableEq

/-- The three named components of a recommendation's priority breakdown
(type declaration `PriorityBreakdown` in the frontend types). -/
structure PriorityBreakdown where
  warmth_component : ℚ
  segment_component : ℚ
  urgency_component : ℚ
deriving DecidableEq

/-- Modelled from the spec: the composite priority,
`0.40 * warmth_component + 0.25 * segment_component +
0.35 * urgency_component`. -/
def priorityScore (b : PriorityBreakdown) : ℚ :=
  40 / 100 * b.warmth_component + 25 / 100 * b.segment_component +
    35 / 100 * b.urgency_component

/-- Modelled from the spec: per-hook urgency weights; the spec fixes only
the monotone ordering (`they_waiting`/`promise_made` more urgent than
`dormant`), so concrete constants respecting it are chosen. -/
def hookUrgency : Hook → ℚ
  | .they_waiting => 100
  | .promise_made => 90
  | .question_unanswered => 70
  | .dormant => 50

/-- Modelled from the spec: the urgency component is driven by the active
hooks — the most urgent one present, 0 with no active hook. -/
def urgencyComponent (hooks : List Hook) : ℚ :=
  (hooks.map hookUrgency).foldr max 0

/-- Modelled from the spec: the segment component is non-zero exactly
when the contact matches the filtered segment (or any segment when
unfiltered); zero matching segments contribute 0. -/
def segmentComponent (filter : Option String) (tags : List String) : ℚ :=
  match filter with
  | some seg => if seg ∈ tags then 100 else 0
  | none => if tags = [] then 0 else 100

/-- A recommendation row (type declaration `Recommendation` in the
frontend types, restricted to the fields the ranking claims speak about —
note `warmth_score` is declared non-nullable there). -/
structure Recommendation where
  contact_id : ℕ
  warmth_score : ℚ
  priority_score : ℚ
  priority_breakdown : PriorityBreakdown
deriving DecidableEq

/-- Modelled from the spec: build the recommendation for a contact whose
warmth score is present. -/
def mkRecommendation (filter : Option String) (c : RContact) (w : ℚ) :
    Recommendation :=
  let b : PriorityBreakdown :=
    ⟨w, segmentComponent filter c.segment_tags, urgencyComponent c.hooks⟩
  ⟨c.id, w, priorityScore b, b⟩

/-- The documented result order: priority descending, ties broken by
warmth descending, then by identifier ascending. -/
def recLE (a b : Recommendation) : Prop :=
  b.priority_score < a.priority_score ∨
    (a.priority_score = b.priority_score ∧
      (b.warmth_score < a.warmth_score ∨
        (a.warmth_score = b.warmth_score ∧ a.contact_id ≤ b.contact_id)))

instance (a b : Recommendation) : Decidable (recLE a b) := by
  unfold recLE
  infer_instance

/-- Modelled from the spec: the ranking operation of the backend ranking
service (not under src/): keep only contacts with a non-null warmth score
(the eligibility filter), build each recommendation, sort by the
documented order and apply the result limit. -/
def rankContacts (filter : Option String) (limit : ℕ)
    (contacts : List RContact) : List Recommendation :=
  ((contacts.filterMap
      (fun c => c.warmth_score.map (mkRecommendation filter c))).insertionSort
    recLE).take limit

/-! ## Theorems -/

/-- C10: `WarmthBadge` is total over its input: a null (or undefined)
score renders the `--` placeholder, and every numeric score gets exactly
one of the four colour classes, following the exhaustive, mutually
exclusive partition `score ≥ 70`, `40 ≤ score < 70`, `10 ≤ score < 40`,
`score < 10`. -/
theorem warmthBadge_total_partition :
    warmthBadge none = BadgeRender.placeholder ∧
    ∀ s : ℚ,
      (70 ≤ s → warmthBadge (some s) = BadgeRender.colored BadgeColor.red s) ∧
      (40 ≤ s → s < 70 → warmthBadge (some s) = BadgeRender.colored BadgeColor.orange s) ∧
      (10 ≤ s → s < 40 → warmthBadge (some s) = BadgeRender.colored BadgeColor.blue s) ∧
      (s < 10 → warmthBadge (some s) = BadgeRender.colored BadgeColor.slate s) ∧
      ∃! c : BadgeColor, warmthBadge (some s) = BadgeRender.colored c s := by
  refine ⟨rfl, fun s => ?_⟩
  have uniq : ∀ X : BadgeColor, warmthBadge (some s) = BadgeRender.colored X s →
      ∃! c : BadgeColor, warmthBadge (some s) = BadgeRender.colored c s :=
    fun X hX => ⟨X, hX, fun c hc => ((BadgeRender.colored.inj (hX.symm.trans hc)).1).symm⟩
  by_cases h70 : (70 : ℚ) ≤ s
  · have heval : warmthBadge (some s) = BadgeRender.colored BadgeColor.red s := by
      simp [warmthBadge, ge_iff_le, h70]
    exact ⟨fun _ => heval, fun _ hlt => absurd h70 (not_le.mpr hlt),
      fun _ hlt => absurd h70 (not_le.mpr (hlt.trans_le (by norm_num))),
      fun hlt => absurd h70 (not_le.mpr (hlt.trans_le (by norm_num))), uniq _ heval⟩
  by_cases h40 : (40 : ℚ) ≤ s
  · have heval : warmthBadge (some s) = BadgeRender.colored BadgeColor.orange s := by
      simp [warmthBadge, ge_iff_le, h70, h40]
    exact ⟨fun h => absurd h h70, fun _ _ => heval,
      fun _ hlt => absurd h40 (not_le.mpr (hlt.trans_le (by norm_num))),
      fun hlt => absurd h40 (not_le.mpr (hlt.trans_le (by norm_num))), uniq _ heval⟩
  by_cases h10 : (10 : ℚ) ≤ s
  · have heval : warmthBadge (some s) = BadgeRender.colored BadgeColor.blue s := by
      simp [warmthBadge, ge_iff_le, h70, h40, h10]
    exact ⟨fun h => absurd h h70, fun h _ => absurd h h40, fun _ _ => heval,
      fun hlt => absurd h10 (not_le.mpr hlt), uniq _ heval⟩
  · have heval : warmthBadge (some s) = BadgeRender.colored BadgeColor.slate s := by
      simp [warmthBadge, ge_iff_le, h70, h40, h10]
    exact ⟨fun h => absurd h h70, fun h _ => absurd h h40, fun h _ => absurd h h10,
      fun _ => heval, uniq _ heval⟩

/-- Witness for C10, at score 55 (the orange band). -/
theorem warmthBadge_total_partition_witness :
    warmthBadge (some 55) = BadgeRender.colored BadgeColor.orange 55 :=
  (warmthBadge_total_partition.2 55).2.1 (by with_unfolding_all decide)
    (by with_unfolding_all decide)

/-- C9 counterexample: a non-ok response whose body is the valid JSON
document `null` makes `apiFetch` throw a `TypeError` — `body.detail` reads
a property of `null`, and the `.catch` is attached only to
`response.json()` — rather than an `ApiError`, refuting the claim that
every non-ok response is surfaced as an `ApiError`. -/
theorem apiFetch_nullBody_counterexample :
    apiFetch ⟨false, 500, some JsVal.null⟩ = FetchOutcome.thrown := rfl

/-- C9 (amended): on an ok response whose body is valid JSON, `apiFetch`
returns the parsed body; on a non-ok response it throws an `ApiError`
whose status equals the HTTP status and whose message is the backend's
detail string — "Unknown error" when the error body is not valid JSON,
and the JSON-serialization of detail when detail is a non-string value
(empty when detail is absent) — except that an error body parsing to
JSON `null` raises a `TypeError` instead of an `ApiError`. -/
theorem apiFetch_outcome_spec (r : HttpResponse) :
    (∀ b, r.ok = true → r.jsonBody = some b → apiFetch r = .success b) ∧
    (r.ok = false → r.jsonBody = none →
      apiFetch r = .apiError ⟨r.status, "Unknown error"⟩) ∧
    (∀ b s, r.ok = false → r.jsonBody = some b →
      getProp b "detail" = some (JsVal.str s) →
      apiFetch r = .apiError ⟨r.status, s⟩) ∧
    (∀ b d, r.ok = false → r.jsonBody = some b →
      getProp b "detail" = some d → (∀ s, d ≠ JsVal.str s) →
      apiFetch r = .apiError ⟨r.status, (stringify d).getD ""⟩) := by
  obtain ⟨ok, status, body⟩ := r
  refine ⟨?_, ?_, ?_, ?_⟩
  · rintro b hok hb
    simp only at hok hb
    subst hok
    subst hb
    rfl
  · rintro hok hb
    simp only at hok hb
    subst hok
    subst hb
    rfl
  · rintro b s hok hb hd
    simp only at hok hb
    subst hok
    subst hb
    simp [apiFetch, hd, detailMessage]
  · rintro b d hok hb hd hne
    simp only at hok hb
    subst hok
    subst hb
    cases d with
    | str s => exact absurd rfl (hne s)
    | undefined => simp [apiFetch, hd, detailMessage]
    | null => simp [apiFetch, hd, detailMessage]
    | bool b => simp [apiFetch, hd, detailMessage]
    | num n => simp [apiFetch, hd, detailMessage]
    | arr es => simp [apiFetch, hd, detailMessage]
    | obj fs => simp [apiFetch, hd, detailMessage]

/-- Witness for C9 (amended), at a 404 whose error body carries a string
detail. -/
theorem apiFetch_outcome_spec_witness :
    apiFetch ⟨false, 404, some (JsVal.obj [("detail", JsVal.str "Not found")])⟩ =
      FetchOutcome.apiError ⟨404, "Not found"⟩ :=
  (apiFetch_outcome_spec ⟨false, 404, some (JsVal.obj [("detail", JsVal.str "Not found")])⟩).2.2.1
    _ "Not found" rfl rfl rfl

/-- C7: the priority score is monotonically non-decreasing in each of its
three components, holding the other two fixed. -/
theorem priorityScore_monotone (b c : PriorityBreakdown) :
    (b.segment_component = c.segment_component →
      b.urgency_component = c.urgency_component →
      b.warmth_component ≤ c.warmth_component →
      priorityScore b ≤ priorityScore c) ∧
    (b.warmth_component = c.warmth_component →
      b.urgency_component = c.urgency_component →
      b.segment_component ≤ c.segment_component →
      priorityScore b ≤ priorityScore c) ∧
    (b.warmth_component = c.warmth_component →
      b.segment_component = c.segment_component →
      b.urgency_component ≤ c.urgency_component →
      priorityScore b ≤ priorityScore c) := by
  unfold priorityScore
  refine ⟨fun h1 h2 h3 => ?_, fun h1 h2 h3 => ?_, fun h1 h2 h3 => ?_⟩ <;>
    rw [h1, h2] <;> linarith

/-- Witness for C7: raising the warmth component from 10 to 50 with the
other components fixed does not lower the priority. -/
theorem priorityScore_monotone_witness :
    priorityScore ⟨10, 20, 30⟩ ≤ priorityScore ⟨50, 20, 30⟩ :=
  (priorityScore_monotone ⟨10, 20, 30⟩ ⟨50, 20, 30⟩).1 rfl rfl
    (by with_unfolding_all decide)

/-- The recency sub-score never drops below 0. -/
theorem recencyScore_nonneg (d : ℕ) : 0 ≤ recencyScore d := by
  unfold recencyScore
  by_cases h7 : d ≤ 7
  · rw [if_pos h7]
    norm_num
  by_cases h180 : 180 ≤ d
  · rw [if_neg h7, if_pos h180]
  · rw [if_neg h7, if_neg h180]
    have hd : (d : ℚ) ≤ 180 := by exact_mod_cast (by omega : d ≤ 180)
    apply div_nonneg
    · linarith
    · norm_num

/-- The recency sub-score never exceeds its cap of 30. -/
theorem recencyScore_le_cap (d : ℕ) : recencyScore d ≤ 30 := by
  unfold recencyScore
  by_cases h7 : d ≤ 7
  · rw [if_pos h7]
  by_cases h180 : 180 ≤ d
  · rw [if_neg h7, if_pos h180]
    norm_num
  · rw [if_neg h7, if_neg h180]
    have hd : (7 : ℚ) ≤ d := by exact_mod_cast (by omega : 7 ≤ d)
    rw [div_le_iff₀ (by norm_num : (0 : ℚ) < 180 - 7)]
    linarith

/-- C8: the recency sub-score is 30 (full points) up to 7 days, 0 from
180 days on, strictly between the bounds in the interpolation region, and
monotonically decreasing in days-since-last-message throughout. -/
theorem recencyScore_spec :
    (∀ d : ℕ, d ≤ 7 → recencyScore d = 30) ∧
    (∀ d : ℕ, 180 ≤ d → recencyScore d = 0) ∧
    (∀ d : ℕ, 7 < d → d < 180 → 0 < recencyScore d ∧ recencyScore d < 30) ∧
    (∀ d e : ℕ, d ≤ e → recencyScore e ≤ recencyScore d) := by
  refine ⟨fun d h => by rw [recencyScore, if_pos h], fun d h => ?_, fun d h1 h2 => ?_, ?_⟩
  · rw [recencyScore, if_neg (by omega), if_pos h]
  · have hlo : (7 : ℚ) < d := by exact_mod_cast h1
    have hhi : (d : ℚ) < 180 := by exact_mod_cast h2
    rw [recencyScore, if_neg (by omega), if_neg (by omega)]
    constructor
    · apply div_pos
      · linarith
      · norm_num
    · rw [div_lt_iff₀ (by norm_num : (0 : ℚ) < 180 - 7)]
      linarith
  · intro d e hde
    by_cases he7 : e ≤ 7
    · rw [recencyScore, if_pos he7, recencyScore, if_pos (by omega)]
    by_cases hd180 : 180 ≤ d
    · rw [recencyScore, if_neg (by omega), if_pos (by omega)]
      exact recencyScore_nonneg d
    by_cases hd7 : d ≤ 7
    · have hd30 : recencyScore d = 30 := by rw [recencyScore, if_pos hd7]
      rw [hd30]
      exact recencyScore_le_cap e
    by_cases he180 : 180 ≤ e
    · rw [recencyScore, if_neg he7, if_pos he180]
      exact recencyScore_nonneg d
    · have hq : (d : ℚ) ≤ e := by exact_mod_cast hde
      rw [recencyScore, if_neg he7, if_neg he180, recencyScore, if_neg hd7,
        if_neg hd180]
      gcongr

/-- Witness for C8: 100 days out scores no more than 10 days out. -/
theorem recencyScore_spec_witness : recencyScore 100 ≤ recencyScore 10 :=
  recencyScore_spec.2.2.2 10 100 (by decide)

/-- The frequency sub-score never drops below 0. -/
theorem frequencyScore_nonneg (n : ℕ) : 0 ≤ frequencyScore n := by
  unfold frequencyScore
  by_cases h : 20 ≤ n
  · rw [if_pos h]
    norm_num
  · rw [if_neg h]
    positivity

/-- The frequency sub-score never exceeds its cap of 20. -/
theorem frequencyScore_le_cap (n : ℕ) : frequencyScore n ≤ 20 := by
  unfold frequencyScore
  by_cases h : 20 ≤ n
  · rw [if_pos h]
  · rw [if_neg h]
    exact_mod_cast (by omega : n ≤ 20)

/-- The depth sub-score stays within 0 and its cap of 25. -/
theorem depthScore_bounds (msgs : List Message) :
    0 ≤ depthScore msgs ∧ depthScore msgs ≤ 25 := by
  unfold depthScore
  by_cases h : msgs.length = 0
  · rw [if_pos h]
    norm_num
  rw [if_neg h]
  have hn : (0 : ℚ) < msgs.length :=
    Nat.cast_pos.mpr (Nat.pos_of_ne_zero h)
  have ha0 : (0 : ℚ) ≤
      min 1 (((msgs.map Message.content_length).sum : ℚ) / (msgs.length : ℚ) / 100) :=
    le_min (by norm_num) (by positivity)
  have ha1 :
      min 1 (((msgs.map Message.content_length).sum : ℚ) / (msgs.length : ℚ) / 100) ≤ 1 :=
    min_le_left _ _
  have hb0 : (0 : ℚ) ≤ (msgs.countP Message.is_substantive : ℚ) / (msgs.length : ℚ) := by
    positivity
  have hb1 : (msgs.countP Message.is_substantive : ℚ) / (msgs.length : ℚ) ≤ 1 := by
    rw [div_le_one hn]
    exact_mod_cast List.countP_le_length Message.is_substantive
  constructor
  · linarith
  · linarith

/-- The responsiveness sub-score stays within 0 and its cap of 15. -/
theorem responsivenessScore_bounds (msgs : List Message) :
    0 ≤ responsivenessScore msgs ∧ responsivenessScore msgs ≤ 15 := by
  unfold responsivenessScore
  by_cases h : sentCount msgs = 0 ∨ receivedCount msgs = 0
  · rw [if_pos h]
    norm_num
  rw [if_neg h]
  have hmax : (0 : ℚ) < ((max (sentCount msgs) (receivedCount msgs) : ℕ) : ℚ) := by
    have : 0 < max (sentCount msgs) (receivedCount msgs) := by omega
    exact_mod_cast this
  constructor
  · positivity
  · rw [div_le_iff₀ hmax]
    have : ((min (sentCount msgs) (receivedCount msgs) : ℕ) : ℚ) ≤
        ((max (sentCount msgs) (receivedCount msgs) : ℕ) : ℚ) := by
      exact_mod_cast min_le_max
    nlinarith

/-- The initiation sub-score stays within 0 and its cap of 10. -/
theorem initiationScore_bounds (msgs : List Message) :
    0 ≤ initiationScore msgs ∧ initiationScore msgs ≤ 10 := by
  unfold initiationScore
  by_cases h : (threadStarts (chronological msgs)).length = 0
  · rw [if_pos h]
    norm_num
  rw [if_neg h]
  have hn : (0 : ℚ) < ((threadStarts (chronological msgs)).length : ℚ) :=
    Nat.cast_pos.mpr (Nat.pos_of_ne_zero h)
  constructor
  · positivity
  · rw [div_le_iff₀ hn]
    have : (((threadStarts (chronological msgs)).countP
          (fun m => m.direction == .received) : ℕ) : ℚ) ≤
        ((threadStarts (chronological msgs)).length : ℚ) := by
      exact_mod_cast List.countP_le_length _
    nlinarith

/-- The recency field of the computed breakdown stays within 0 and 30. -/
theorem breakdown_recency_bounds (today : ℕ) (msgs : List Message) :
    0 ≤ (warmthBreakdownOf today msgs).recency ∧
      (warmthBreakdownOf today msgs).recency ≤ 30 := by
  unfold warmthBreakdownOf
  cases lastMessageDay msgs with
  | none => exact ⟨le_refl 0, by norm_num⟩
  | some d => exact ⟨recencyScore_nonneg _, recencyScore_le_cap _⟩

/-- C3: for every message history, the warmth score equals the sum of the
five named sub-scores of its breakdown, each sub-score lies within its
documented cap (recency ≤ 30, frequency ≤ 20, depth ≤ 25,
responsiveness ≤ 15, initiation ≤ 10) and is non-negative, so the total
lies within 0–100. -/
theorem warmth_sum_and_caps (today : ℕ) (msgs : List Message) :
    warmthScoreOf today msgs =
      (warmthBreakdownOf today msgs).recency +
        (warmthBreakdownOf today msgs).frequency +
        (warmthBreakdownOf today msgs).depth +
        (warmthBreakdownOf today msgs).responsiveness +
        (warmthBreakdownOf today msgs).initiation ∧
    (0 ≤ (warmthBreakdownOf today msgs).recency ∧
      (warmthBreakdownOf today msgs).recency ≤ 30) ∧
    (0 ≤ (warmthBreakdownOf today msgs).frequency ∧
      (warmthBreakdownOf today msgs).frequency ≤ 20) ∧
    (0 ≤ (warmthBreakdownOf today msgs).depth ∧
      (warmthBreakdownOf today msgs).depth ≤ 25) ∧
    (0 ≤ (warmthBreakdownOf today msgs).responsiveness ∧
      (warmthBreakdownOf today msgs).responsiveness ≤ 15) ∧
    (0 ≤ (warmthBreakdownOf today msgs).initiation ∧
      (warmthBreakdownOf today msgs).initiation ≤ 10) ∧
    0 ≤ warmthScoreOf today msgs ∧ warmthScoreOf today msgs ≤ 100 := by
  have hr := breakdown_recency_bounds today msgs
  have hf : 0 ≤ (warmthBreakdownOf today msgs).frequency ∧
      (warmthBreakdownOf today msgs).frequency ≤ 20 :=
    ⟨frequencyScore_nonneg _, frequencyScore_le_cap _⟩
  have hd : 0 ≤ (warmthBreakdownOf today msgs).depth ∧
      (warmthBreakdownOf today msgs).depth ≤ 25 := depthScore_bounds msgs
  have hresp : 0 ≤ (warmthBreakdownOf today msgs).responsiveness ∧
      (warmthBreakdownOf today msgs).responsiveness ≤ 15 :=
    responsivenessScore_bounds msgs
  have hi : 0 ≤ (warmthBreakdownOf today msgs).initiation ∧
      (warmthBreakdownOf today msgs).initiation ≤ 10 := initiationScore_bounds msgs
  refine ⟨rfl, hr, hf, hd, hresp, hi, ?_, ?_⟩
  · unfold warmthScoreOf
    linarith [hr.1, hf.1, hd.1, hresp.1, hi.1]
  · unfold warmthScoreOf
    linarith [hr.2, hf.2, hd.2, hresp.2, hi.2]

/-- The documented result order is total. -/
theorem recLE_total (a b : Recommendation) : recLE a b ∨ recLE b a := by
  unfold recLE
  rcases lt_trichotomy a.priority_score b.priority_score with hp | hp | hp
  · exact Or.inr (Or.inl hp)
  · rcases lt_trichotomy a.warmth_score b.warmth_score with hw | hw | hw
    · exact Or.inr (Or.inr ⟨hp.symm, Or.inl hw⟩)
    · rcases Nat.le_total a.contact_id b.contact_id with hid | hid
      · exact Or.inl (Or.inr ⟨hp, Or.inr ⟨hw, hid⟩⟩)
      · exact Or.inr (Or.inr ⟨hp.symm, Or.inr ⟨hw.symm, hid⟩⟩)
    · exact Or.inl (Or.inr ⟨hp, Or.inl hw⟩)
  · exact Or.inl (Or.inl hp)

/-- The documented result order is transitive. -/
theorem recLE_trans (a b c : Recommendation) :
    recLE a b → recLE b c → recLE a c := by
  unfold recLE
  rintro (h1 | ⟨hp1, h1⟩) (h2 | ⟨hp2, h2⟩)
  · exact Or.inl (h2.trans h1)
  · exact Or.inl (hp2 ▸ h1)
  · exact Or.inl (by rw [hp1]; exact h2)
  · refine Or.inr ⟨hp1.trans hp2, ?_⟩
    rcases h1 with hw1 | ⟨hw1, hid1⟩ <;> rcases h2 with hw2 | ⟨hw2, hid2⟩
    · exact Or.inl (hw2.trans hw1)
    · exact Or.inl (hw2 ▸ hw1)
    · exact Or.inl (hw1 ▸ hw2)
    · exact Or.inr ⟨hw1.trans hw2, hid1.trans hid2⟩

instance : IsTotal Recommendation recLE :=
  ⟨recLE_total⟩

instance : IsTrans Recommendation recLE :=
  ⟨fun a b c => recLE_trans a b c⟩

/-- Mutual `recLE` forces equal priority, equal warmth and equal
identifier; with identifiers unique in context this is antisymmetry. -/
theorem recLE_antisymm_fields (a b : Recommendation)
    (h1 : recLE a b) (h2 : recLE b a) :
    a.priority_score = b.priority_score ∧ a.warmth_score = b.warmth_score ∧
      a.contact_id = b.contact_id := by
  unfold recLE at h1 h2
  rcases h1 with hp1 | ⟨hp1, h1⟩
  · rcases h2 with hp2 | ⟨hp2, h2⟩
    · exact absurd (hp1.trans hp2) (lt_irrefl _)
    · exact absurd hp1 (hp2 ▸ lt_irrefl _)
  · refine ⟨hp1, ?_⟩
    rcases h1 with hw1 | ⟨hw1, hid1⟩
    · rcases h2 with hp2 | ⟨hp2, h2⟩
      · exact absurd hp2 (hp1 ▸ lt_irrefl _)
      · rcases h2 with hw2 | ⟨hw2, hid2⟩
        · exact absurd (hw1.trans hw2) (lt_irrefl _)
        · exact absurd hw1 (hw2 ▸ lt_irrefl _)
    · rcases h2 with hp2 | ⟨hp2, h2⟩
      · exact absurd hp2 (hp1 ▸ lt_irrefl _)
      · rcases h2 with hw2 | ⟨hw2, hid2⟩
        · exact absurd hw2 (hw1 ▸ lt_irrefl _)
        · exact ⟨hw1, Nat.le_antisymm hid1 hid2⟩

/-- Two sorted permutations of the same recommendations coincide, as long
as the identifier determines the record among them. -/
theorem sorted_perm_eq_of_id_inj :
    ∀ {l1 l2 : List Recommendation}, l1.Perm l2 → l1.Sorted recLE →
      l2.Sorted recLE →
      (∀ a ∈ l1, ∀ b ∈ l1, a.contact_id = b.contact_id → a = b) → l1 = l2 := by
  intro l1
  induction l1 with
  | nil =>
    intro l2 hp _ _ _
    exact (hp.symm.eq_nil).symm
  | cons a t ih =>
    intro l2 hp hs1 hs2 hinj
    cases l2 with
    | nil => exact absurd hp.eq_nil (by simp)
    | cons b t2 =>
      have hab : a = b := by
        rcases List.mem_cons.mp (hp.mem_iff.mp (List.mem_cons_self a t)) with
          heq | hmem
        · exact heq
        · have hba : recLE b a := (List.sorted_cons.mp hs2).1 a hmem
          rcases List.mem_cons.mp (hp.symm.mem_iff.mp (List.mem_cons_self b t2)) with
            heq | hmem2
          · exact heq.symm
          · have hab2 : recLE a b := (List.sorted_cons.mp hs1).1 b hmem2
            have hid := (recLE_antisymm_fields a b hab2 hba).2.2
            exact hinj a (List.mem_cons_self a t) b (List.mem_cons_of_mem a hmem2)
              hid
      subst hab
      have ht : t.Perm t2 := hp.cons_inv
      have := ih ht (List.sorted_cons.mp hs1).2 (List.sorted_cons.mp hs2).2
        (fun x hx y hy hxy =>
          hinj x (List.mem_cons_of_mem a hx) y (List.mem_cons_of_mem a hy) hxy)
      rw [this]

/-- Every ranked recommendation originates, via `mkRecommendation`, from
a stored contact whose warmth score is present. -/
theorem mem_rankContacts (filter : Option String) (limit : ℕ)
    (contacts : List RContact) (r : Recommendation)
    (hr : r ∈ rankContacts filter limit contacts) :
    ∃ c ∈ contacts, ∃ w : ℚ, c.warmth_score = some w ∧
      r = mkRecommendation filter c w := by
  unfold rankContacts at hr
  have hr1 := List.mem_of_mem_take hr
  rw [List.mem_insertionSort] at hr1
  obtain ⟨c, hc, heq⟩ := List.mem_filterMap.mp hr1
  cases hw : c.warmth_score with
  | none => rw [hw] at heq; exact absurd heq (by simp)
  | some w =>
    rw [hw] at heq
    exact ⟨c, hc, w, hw, (Option.some_inj.mp heq).symm⟩

/-- C1: every ranked recommendation's priority score equals
`0.40 * warmth_component + 0.25 * segment_component +
0.35 * urgency_component`, the components carried in its
`priority_breakdown`. -/
theorem rank_priority_weighted_sum (filter : Option String) (limit : ℕ)
    (contacts : List RContact) :
    ∀ r ∈ rankContacts filter limit contacts,
      r.priority_score =
        40 / 100 * r.priority_breakdown.warmth_component +
          25 / 100 * r.priority_breakdown.segment_component +
          35 / 100 * r.priority_breakdown.urgency_component := by
  intro r hr
  obtain ⟨c, hc, w, hw, heq⟩ := mem_rankContacts filter limit contacts r hr
  subst heq
  rfl

/-- Witness for C1: a single eligible contact with an active
`they_waiting` hook ranks with priority 67 = 0.40·80 + 0.25·0 + 0.35·100. -/
theorem rank_priority_weighted_sum_witness :
    (⟨1, 80, 67, ⟨80, 0, 100⟩⟩ : Recommendation) ∈
        rankContacts none 5 [⟨1, some 80, [], [Hook.they_waiting]⟩] ∧
      (67 : ℚ) = 40 / 100 * 80 + 25 / 100 * 0 + 35 / 100 * 100 :=
  ⟨by with_unfolding_all decide,
    rank_priority_weighted_sum none 5 [⟨1, some 80, [], [Hook.they_waiting]⟩]
      ⟨1, 80, 67, ⟨80, 0, 100⟩⟩ (by with_unfolding_all decide)⟩

/-- C2: a contact whose warmth score is null is never ranked (no returned
recommendation carries its identifier), and every returned recommendation
carries the non-null warmth score of the contact it was built from. -/
theorem rank_null_warmth_excluded (filter : Option String) (limit : ℕ)
    (contacts : List RContact)
    (hids : (contacts.map RContact.id).Nodup) :
    (∀ c ∈ contacts, c.warmth_score = none →
      ∀ r ∈ rankContacts filter limit contacts, r.contact_id ≠ c.id) ∧
    (∀ r ∈ rankContacts filter limit contacts,
      ∃ c ∈ contacts, r.contact_id = c.id ∧ c.warmth_score = some r.warmth_score) := by
  constructor
  · intro c hc hnull r hr heqid
    obtain ⟨c2, hc2, w, hw, heq⟩ := mem_rankContacts filter limit contacts r hr
    have hr_id : r.contact_id = c2.id := by rw [heq]; rfl
    have hcc : c2 = c :=
      List.inj_on_of_nodup_map hids hc2 hc (hr_id ▸ heqid)
    rw [hcc] at hw
    rw [hnull] at hw
    exact absurd hw (by simp)
  · intro r hr
    obtain ⟨c, hc, w, hw, heq⟩ := mem_rankContacts filter limit contacts r hr
    refine ⟨c, hc, by rw [heq]; rfl, ?_⟩
    rw [heq]
    exact hw

/-- Witness for C2: with one scored and one unscored contact, the ranked
output never names the unscored contact's identifier. -/
theorem rank_null_warmth_excluded_witness :
    (([⟨1, some 80, [], []⟩, ⟨2, none, [], []⟩] : List RContact).map
        RContact.id).Nodup ∧
      (⟨1, 80, 32, ⟨80, 0, 0⟩⟩ : Recommendation) ∈
        rankContacts none 5 [⟨1, some 80, [], []⟩, ⟨2, none, [], []⟩] ∧
      (⟨1, 80, 32, ⟨80, 0, 0⟩⟩ : Recommendation).contact_id ≠ 2 :=
  ⟨by with_unfolding_all decide, by with_unfolding_all decide,
    (rank_null_warmth_excluded none 5
        [⟨1, some 80, [], []⟩, ⟨2, none, [], []⟩]
        (by with_unfolding_all decide)).1
      ⟨2, none, [], []⟩ (by with_unfolding_all decide) rfl
      ⟨1, 80, 32, ⟨80, 0, 0⟩⟩ (by with_unfolding_all decide)⟩

/-- C6: the ranking output over unchanged data is deterministic — it does
not depend on the order the store enumerates the contacts in — and is
sorted by priority descending with the documented stable tie-break
(warmth descending, then identifier ascending). -/
theorem rank_deterministic (filter : Option String) (limit : ℕ)
    (cs cs2 : List RContact) (hperm : cs.Perm cs2)
    (hids : (cs.map RContact.id).Nodup) :
    rankContacts filter limit cs = rankContacts filter limit cs2 ∧
      (rankContacts filter limit cs).Sorted recLE := by
  have hsorted1 :
      ((cs.filterMap
          (fun c => c.warmth_score.map (mkRecommendation filter c))).insertionSort
        recLE).Sorted recLE := List.sorted_insertionSort recLE _
  have hsorted2 :
      ((cs2.filterMap
          (fun c => c.warmth_score.map (mkRecommendation filter c))).insertionSort
        recLE).Sorted recLE := List.sorted_insertionSort recLE _
  have hpermsort :
      ((cs.filterMap
          (fun c => c.warmth_score.map (mkRecommendation filter c))).insertionSort
        recLE).Perm
        ((cs2.filterMap
            (fun c => c.warmth_score.map (mkRecommendation filter c))).insertionSort
          recLE) :=
    ((List.perm_insertionSort recLE _).trans
        (hperm.filterMap _)).trans
      (List.perm_insertionSort recLE _).symm
  have hinj : ∀ a ∈ (cs.filterMap
        (fun c => c.warmth_score.map (mkRecommendation filter c))).insertionSort
      recLE,
      ∀ b ∈ (cs.filterMap
        (fun c => c.warmth_score.map (mkRecommendation filter c))).insertionSort
      recLE, a.contact_id = b.contact_id → a = b := by
    intro a ha b hb hab
    rw [List.mem_insertionSort] at ha hb
    obtain ⟨c1, hc1, he1⟩ := List.mem_filterMap.mp ha
    obtain ⟨c2, hc2, he2⟩ := List.mem_filterMap.mp hb
    cases hw1 : c1.warmth_score with
    | none => rw [hw1] at he1; exact absurd he1 (by simp)
    | some w1 =>
      cases hw2 : c2.warmth_score with
      | none => rw [hw2] at he2; exact absurd he2 (by simp)
      | some w2 =>
        rw [hw1] at he1
        rw [hw2] at he2
        have ha2 : a = mkRecommendation filter c1 w1 := (Option.some_inj.mp he1).symm
        have hb2 : b = mkRecommendation filter c2 w2 := (Option.some_inj.mp he2).symm
        have hid : c1.id = c2.id := by
          have h1 : a.contact_id = c1.id := by rw [ha2]; rfl
          have h2 : b.contact_id = c2.id := by rw [hb2]; rfl
          rw [← h1, ← h2, hab]
        have hc : c1 = c2 := List.inj_on_of_nodup_map hids hc1 hc2 hid
        subst hc
        have hww : w1 = w2 := Option.some_inj.mp (hw1.symm.trans hw2)
        rw [ha2, hb2, hww]
  have hmain := sorted_perm_eq_of_id_inj hpermsort hsorted1 hsorted2 hinj
  constructor
  · unfold rankContacts
    rw [hmain]
  · unfold rankContacts
    exact (List.sorted_insertionSort recLE _).sublist (List.take_sublist _ _)

/-- Witness for C6: two tied contacts, presented in either store order,
rank identically (tie broken by identifier). -/
theorem rank_deterministic_witness :
    ([⟨2, some 50, ["MujerTech"], []⟩, ⟨1, some 50, ["MujerTech"], []⟩] :
        List RContact).Perm
        [⟨1, some 50, ["MujerTech"], []⟩, ⟨2, some 50, ["MujerTech"], []⟩] ∧
      rankContacts none 5
          [⟨2, some 50, ["MujerTech"], []⟩, ⟨1, some 50, ["MujerTech"], []⟩] =
        rankContacts none 5
          [⟨1, some 50, ["MujerTech"], []⟩, ⟨2, some 50, ["MujerTech"], []⟩] :=
  ⟨by with_unfolding_all decide,
    (rank_deterministic none 5
        [⟨2, some 50, ["MujerTech"], []⟩, ⟨1, some 50, ["MujerTech"], []⟩]
        [⟨1, some 50, ["MujerTech"], []⟩, ⟨2, some 50, ["MujerTech"], []⟩]
        (by with_unfolding_all decide) (by with_unfolding_all decide)).1⟩

/-- A fold preserves any invariant its step preserves. -/
theorem foldl_preserves {α β : Type} (P : β → Prop) (f : β → α → β)
    (hf : ∀ s a, P s → P (f s a)) :
    ∀ (l : List α) (s : β), P s → P (List.foldl f s l) := by
  intro l
  induction l with
  | nil => exact fun s hs => hs
  | cons a t ih => exact fun s hs => ih _ (hf _ _ hs)

/-- The scan update never changes a row's contact. -/
theorem scanPair_contact (b : Bool) (o : Opp) :
    (scanPair b o).contact_id = o.contact_id := by
  unfold scanPair
  cases b <;> cases h : o.last_condition <;> simp [h]

/-- The scan update never changes a row's hook type. -/
theorem scanPair_hook (b : Bool) (o : Opp) :
    (scanPair b o).hook_type = o.hook_type := by
  unfold scanPair
  cases b <;> cases h : o.last_condition <;> simp [h]

/-- Touching a row during a scan never changes its contact. -/
theorem touchKey_contact (conds : Conds) (cid : ℕ) (h : Hook) (o : Opp) :
    (touchKey conds cid h o).contact_id = o.contact_id := by
  unfold touchKey
  by_cases hm : o.contact_id = cid ∧ o.hook_type = h
  · rw [if_pos hm, scanPair_contact]
  · rw [if_neg hm]

/-- Touching a row during a scan never changes its hook type. -/
theorem touchKey_hook (conds : Conds) (cid : ℕ) (h : Hook) (o : Opp) :
    (touchKey conds cid h o).hook_type = o.hook_type := by
  unfold touchKey
  by_cases hm : o.contact_id = cid ∧ o.hook_type = h
  · rw [if_pos hm, scanPair_hook]
  · rw [if_neg hm]

/-- Touching rows preserves key coincidence in both directions. -/
theorem sameKey_touchKey (conds : Conds) (cid : ℕ) (h : Hook) (a b : Opp) :
    sameKey (touchKey conds cid h a) (touchKey conds cid h b) ↔ sameKey a b := by
  unfold sameKey
  rw [touchKey_contact, touchKey_contact, touchKey_hook, touchKey_hook]

/-- The `UNIQUE(contact_id, hook_type)` discipline: no two rows of the
state carry the same key. -/
def KeyDistinct (st : List Opp) : Prop :=
  st.Pairwise (fun a b => ¬ sameKey a b)

/-- One per-pair scan step preserves key uniqueness. -/
theorem keyDistinct_scanOne (conds : Conds) (cid : ℕ) (h : Hook)
    (st : List Opp) (hd : KeyDistinct st) :
    KeyDistinct (scanOne conds cid h st) := by
  unfold KeyDistinct at hd ⊢
  unfold scanOne
  by_cases hany : (st.any fun o => o.contact_id == cid && o.hook_type == h) = true
  · rw [if_pos hany, List.pairwise_map]
    exact hd.imp (fun hne hk => hne ((sameKey_touchKey conds cid h _ _).mp hk))
  · rw [if_neg hany]
    by_cases hc : conds cid h = true
    · rw [if_pos hc, List.pairwise_cons]
      refine ⟨fun o ho hk => ?_, hd⟩
      rw [List.any_eq_true] at hany
      exact hany ⟨o, ho, by
        obtain ⟨h1, h2⟩ := hk
        simp only at h1 h2
        rw [Bool.and_eq_true, beq_iff_eq, beq_iff_eq]
        exact ⟨h1.symm, h2.symm⟩⟩
    · rw [if_neg hc]
      exact hd

/-- A contact's full-hook scan preserves key uniqueness. -/
theorem keyDistinct_scanHooks (conds : Conds) (cid : ℕ) (st : List Opp)
    (hd : KeyDistinct st) : KeyDistinct (scanHooks conds cid st) :=
  foldl_preserves KeyDistinct _
    (fun s a hs => keyDistinct_scanOne conds cid a s hs) allHooks st hd

/-- A full scanner run preserves key uniqueness. -/
theorem keyDistinct_scanAll (conds : Conds) (cids : List ℕ) (st : List Opp)
    (hd : KeyDistinct st) : KeyDistinct (scanAll conds cids st) :=
  foldl_preserves KeyDistinct _
    (fun s a hs => keyDistinct_scanHooks conds a s hs) cids st hd

/-- Dismissal never changes a row's contact. -/
theorem dismissTouch_contact (cid : ℕ) (h : Hook) (o : Opp) :
    (dismissTouch cid h o).contact_id = o.contact_id := by
  unfold dismissTouch
  by_cases hm : o.contact_id = cid ∧ o.hook_type = h
  · rw [if_pos hm]
  · rw [if_neg hm]

/-- Dismissal never changes a row's hook type. -/
theorem dismissTouch_hook (cid : ℕ) (h : Hook) (o : Opp) :
    (dismissTouch cid h o).hook_type = o.hook_type := by
  unfold dismissTouch
  by_cases hm : o.contact_id = cid ∧ o.hook_type = h
  · rw [if_pos hm]
  · rw [if_neg hm]

/-- Dismissal preserves key uniqueness. -/
theorem keyDistinct_dismissPair (cid : ℕ) (h : Hook) (st : List Opp)
    (hd : KeyDistinct st) : KeyDistinct (dismissPair cid h st) := by
  unfold KeyDistinct at hd ⊢
  unfold dismissPair
  rw [List.pairwise_map]
  refine hd.imp (fun hne hk => hne ?_)
  obtain ⟨h1, h2⟩ := hk
  rw [dismissTouch_contact, dismissTouch_contact] at h1
  rw [dismissTouch_hook, dismissTouch_hook] at h2
  exact ⟨h1, h2⟩

/-- Every reachable opportunity state satisfies the unique-key
discipline. -/
theorem reachable_keyDistinct {st : List Opp} (h : Reachable st) :
    KeyDistinct st := by
  induction h with
  | init => exact List.Pairwise.nil
  | scan conds cids _ ih => exact keyDistinct_scanAll conds cids _ ih
  | dismiss cid hk _ ih => exact keyDistinct_dismissPair cid hk _ ih

/-- C4: in every reachable opportunity state — across any number of
scanner re-runs and dismissals — no two simultaneously-active rows exist
for the same `(contact, hook_type)` pair; re-detection updates the
existing row (the state never even holds two rows, active or not, with
one key). -/
theorem no_duplicate_active {st : List Opp} (h : Reachable st) :
    st.Pairwise
      (fun a b => a.is_active = true → b.is_active = true → ¬ sameKey a b) :=
  (reachable_keyDistinct h).imp (fun hne _ _ => hne)

/-- Witness for C4: the state after one full scan of contacts 1 and 2
with every hook condition true is reachable and duplicate-free. -/
theorem no_duplicate_active_witness :
    Reachable (scanAll (fun _ _ => true) [1, 2] []) ∧
      (scanAll (fun _ _ => true) [1, 2] []).Pairwise
        (fun a b => a.is_active = true → b.is_active = true → ¬ sameKey a b) :=
  ⟨Reachable.scan (fun _ _ => true) [1, 2] Reachable.init,
    no_duplicate_active (Reachable.scan (fun _ _ => true) [1, 2] Reachable.init)⟩

/-- The dismissed-row invariant for one `(contact, hook)` key: a row for
the key exists, and every row for the key is inactive with its remembered
condition agreeing with what the current data evaluates to (that is, the
underlying data has not changed state since the row's last scan). -/
def DismissedInv (conds : Conds) (cid : ℕ) (h : Hook) (st : List Opp) : Prop :=
  (∃ o ∈ st, o.contact_id = cid ∧ o.hook_type = h) ∧
    ∀ o ∈ st, o.contact_id = cid → o.hook_type = h →
      o.is_active = false ∧ o.last_condition = conds cid h

/-- One per-pair scan step keeps a dismissed key inactive when the
underlying data is unchanged. -/
theorem dismissedInv_scanOne (conds : Conds) (cid : ℕ) (h : Hook)
    (cid2 : ℕ) (h2 : Hook) (st : List Opp)
    (hJ : DismissedInv conds cid h st) :
    DismissedInv conds cid h (scanOne conds cid2 h2 st) := by
  obtain ⟨⟨o0, ho0, hk0⟩, hall⟩ := hJ
  unfold scanOne
  by_cases hany : (st.any fun o => o.contact_id == cid2 && o.hook_type == h2) = true
  · rw [if_pos hany]
    constructor
    · exact ⟨touchKey conds cid2 h2 o0, List.mem_map_of_mem _ ho0,
        by rw [touchKey_contact, touchKey_hook]; exact hk0⟩
    · intro x hx hxc hxh
      obtain ⟨o, ho, rfl⟩ := List.mem_map.mp hx
      rw [touchKey_contact] at hxc
      rw [touchKey_hook] at hxh
      obtain ⟨hia, hlc⟩ := hall o ho hxc hxh
      unfold touchKey
      by_cases hmatch : o.contact_id = cid2 ∧ o.hook_type = h2
      · rw [if_pos hmatch]
        have hc2 : cid2 = cid := by rw [← hmatch.1, hxc]
        have hh2 : h2 = h := by rw [← hmatch.2, hxh]
        subst hc2
        subst hh2
        cases hcond : conds cid2 h2 with
        | false => simp [scanPair, hcond, hlc, hia]
        | true => simp [scanPair, hcond, hlc, hia]
      · rw [if_neg hmatch]
        exact ⟨hia, hlc⟩
  · rw [if_neg hany]
    by_cases hc : conds cid2 h2 = true
    · rw [if_pos hc]
      constructor
      · exact ⟨o0, List.mem_cons_of_mem _ ho0, hk0⟩
      · intro x hx hxc hxh
        rcases List.mem_cons.mp hx with rfl | hx2
        · exfalso
          simp only at hxc hxh
          apply hany
          rw [List.any_eq_true]
          refine ⟨o0, ho0, ?_⟩
          rw [Bool.and_eq_true, beq_iff_eq, beq_iff_eq]
          exact ⟨hk0.1.trans hxc.symm, hk0.2.trans hxh.symm⟩
        · exact hall x hx2 hxc hxh
    · rw [if_neg hc]
      exact ⟨⟨o0, ho0, hk0⟩, hall⟩

/-- A contact's full-hook scan keeps a dismissed key inactive. -/
theorem dismissedInv_scanHooks (conds : Conds) (cid : ℕ) (h : Hook)
    (cid2 : ℕ) (st : List Opp) (hJ : DismissedInv conds cid h st) :
    DismissedInv conds cid h (scanHooks conds cid2 st) :=
  foldl_preserves (DismissedInv conds cid h) _
    (fun s a hs => dismissedInv_scanOne conds cid h cid2 a s hs) allHooks st hJ

/-- A full scanner run keeps a dismissed key inactive. -/
theorem dismissedInv_scanAll (conds : Conds) (cid : ℕ) (h : Hook)
    (cids : List ℕ) (st : List Opp) (hJ : DismissedInv conds cid h st) :
    DismissedInv conds cid h (scanAll conds cids st) :=
  foldl_preserves (DismissedInv conds cid h) _
    (fun s a hs => dismissedInv_scanHooks conds cid h a s hs) cids st hJ

/-- C5: once an opportunity for a `(contact, hook)` pair has been
dismissed (every row for the key is inactive) and the underlying data is
unchanged since the row's last scan (the remembered condition agrees with
what the data currently evaluates to), re-running the scanner — over any
set of contacts — leaves every row for that key inactive: the scan never
reactivates a dismissed opportunity. -/
theorem dismissed_stays_inactive (conds : Conds) (cids : List ℕ)
    (st : List Opp) (cid : ℕ) (h : Hook)
    (hex : ∃ o ∈ st, o.contact_id = cid ∧ o.hook_type = h)
    (hinact : ∀ o ∈ st, o.contact_id = cid → o.hook_type = h →
      o.is_active = false ∧ o.last_condition = conds cid h) :
    ∀ o ∈ scanAll conds cids st, o.contact_id = cid → o.hook_type = h →
      o.is_active = false :=
  fun o ho hc hh =>
    ((dismissedInv_scanAll conds cid h cids st ⟨hex, hinact⟩).2 o ho hc hh).1

/-- Witness for C5: a dismissed dormant opportunity for contact 1, with
its hook condition still holding, survives a full re-scan inactive. -/
theorem dismissed_stays_inactive_witness :
    ((⟨1, Hook.dormant, false, true⟩ : Opp) ∈
        scanAll (fun _ _ => true) [1] [⟨1, Hook.dormant, false, true⟩]) ∧
      (⟨1, Hook.dormant, false, true⟩ : Opp).is_active = false :=
  ⟨by decide,
    dismissed_stays_inactive (fun _ _ => true) [1]
      [⟨1, Hook.dormant, false, true⟩] 1 Hook.dormant
      ⟨⟨1, Hook.dormant, false, true⟩, by decide⟩ (by decide)
      ⟨1, Hook.dormant, false, true⟩ (by decide) rfl rfl⟩

end LinkedInAgent
